import Mathlib

/-!
Verification of the ProyectoCN distributed image-processing core:
the Redis-backed task queue (workers/redis_task_queue_v2.py), the worker
registry (workers/worker_registry.py), the filter pipeline
(core/filter_pipeline.py) and the filter factory (core/filter_factory.py),
embedded shallowly. Redis lists become Lean lists (RPUSH appends at the
tail, BRPOPLPUSH pops the source tail and pushes the destination head,
LREM 1 removes the first occurrence scanning from the head), Redis hashes
become records with optional fields, wall-clock instants become rational
parameters passed to each operation, and image math - out of scope for the
spec - becomes a free term algebra, so that each concrete filter is an
opaque pure constructor.
-/

namespace ProyectoCN

/-! ## Decimal rendering of task ids

Python mints task ids as the string `task-` followed by `str(int(time.time()
* 1000))`, the decimal rendering of the millisecond timestamp. The fuel
argument makes the recursion structural, so closed instances reduce by
`decide`. -/

/-- Least-significant-first decimal digits of `n`; `fuel` only bounds the
recursion and any `fuel > n` yields the true digits. -/
def digitsRevGo : Nat → Nat → List (Fin 10)
  | 0, _ => []
  | fuel + 1, n =>
    if h : n < 10 then [⟨n, h⟩]
    else ⟨n % 10, Nat.mod_lt n (by omega)⟩ :: digitsRevGo fuel (n / 10)

/-- Least-significant-first decimal digits of `n`. -/
def digitsRev (n : Nat) : List (Fin 10) := digitsRevGo (n + 1) n

/-- Evaluate a least-significant-first digit list back to the number. -/
def ofDigitsRev (l : List (Fin 10)) : Nat :=
  l.foldr (fun d acc => d.val + 10 * acc) 0

theorem ofDigitsRev_digitsRevGo (fuel : Nat) :
    ∀ n : Nat, n < fuel → ofDigitsRev (digitsRevGo fuel n) = n := by
  induction fuel with
  | zero => intro n h; omega
  | succ f ih =>
    intro n h
    rw [digitsRevGo]
    by_cases h10 : n < 10
    · simp [h10, ofDigitsRev]
    · have hpos : 0 < n := by omega
      have hlt : n / 10 < n := Nat.div_lt_self hpos (by omega)
      have hf : n / 10 < f := by omega
      simp only [h10, dite_false, ofDigitsRev, List.foldr_cons]
      have := ih (n / 10) hf
      simp only [ofDigitsRev] at this
      rw [this]
      omega

theorem ofDigitsRev_digitsRev (n : Nat) : ofDigitsRev (digitsRev n) = n :=
  ofDigitsRev_digitsRevGo (n + 1) n (Nat.lt_succ_self n)

theorem digitsRev_injective : Function.Injective digitsRev :=
  Function.LeftInverse.injective ofDigitsRev_digitsRev

/-- The character of one decimal digit. -/
def digitChar (d : Fin 10) : Char :=
  match d with
  | 0 => '0' | 1 => '1' | 2 => '2' | 3 => '3' | 4 => '4'
  | 5 => '5' | 6 => '6' | 7 => '7' | 8 => '8' | 9 => '9'

theorem digitChar_injective : Function.Injective digitChar := by
  intro a b h
  revert h
  revert a b
  decide

/-- The decimal rendering of a natural number, as Python `str` writes it. -/
def natStr (n : Nat) : String :=
  String.mk ((digitsRev n).reverse.map digitChar)

theorem natStr_injective : Function.Injective natStr := by
  intro a b h
  have hdata : ((digitsRev a).reverse.map digitChar) =
      ((digitsRev b).reverse.map digitChar) := congrArg String.data h
  have hrev : (digitsRev a).reverse = (digitsRev b).reverse :=
    List.map_injective_iff.mpr digitChar_injective hdata
  exact digitsRev_injective (List.reverse_injective hrev)

/-- Task id minted by `add_task`: `task-` followed by the millisecond stamp.
Two calls inside one millisecond mint the same id. -/
def taskIdOf (t_ms : Nat) : String := "task-" ++ natStr t_ms

theorem taskIdOf_data (t_ms : Nat) :
    (taskIdOf t_ms).data = 't' :: 'a' :: 's' :: 'k' :: '-' :: (natStr t_ms).data := rfl

theorem taskIdOf_injective : Function.Injective taskIdOf := by
  intro a b h
  have h2 : (taskIdOf a).data = (taskIdOf b).data := congrArg String.data h
  rw [taskIdOf_data, taskIdOf_data] at h2
  have h3 : (natStr a).data = (natStr b).data := by
    simpa using h2
  exact natStr_injective (congrArg String.mk h3)

/-! ## RedisTaskQueueV2 (workers/redis_task_queue_v2.py)

The queue keeps five Redis lists under its namespace and one hash per task.
A hash is a record of optional fields (a field is `none` until some HSET
writes it); `retry_count` is stored as a number, ISO timestamps as the
rational instant passed to the operation. Python stores `str(None)` for the
initial `last_error`; the model keeps the field absent, which no operation
ever reads before overwriting. -/

/-- The per-task Redis hash `queue_name:task:id`. -/
structure TaskHash where
  task_id : Option String := none
  data : Option String := none
  status : Option String := none
  created_at : Option ℚ := none
  started_at : Option ℚ := none
  completed_at : Option ℚ := none
  failed_at : Option ℚ := none
  worker_id : Option String := none
  retry_count : Option Nat := none
  last_error : Option String := none
  result : Option String := none
deriving DecidableEq, Repr

/-- The whole keyspace of one queue: the five lists and the task hashes.
`max_retries` is the constructor argument (default 3). -/
structure QState where
  max_retries : Nat := 3
  pending : List String := []
  processing : List String := []
  completed : List String := []
  failed : List String := []
  dead_letter : List String := []
  tasks : String → Option TaskHash := fun _ => none

/-- A fresh queue, as `__init__` leaves Redis (no keys yet). -/
def emptyQ : QState := {}

/-- HSET on the task keyspace: replace the hash stored under `id`. -/
def updateTask (m : String → Option TaskHash) (id : String) (h : TaskHash) :
    String → Option TaskHash :=
  fun k => if k = id then some h else m k

theorem updateTask_self (m : String → Option TaskHash) (id : String) (h : TaskHash) :
    updateTask m id h id = some h := by
  simp [updateTask]

theorem updateTask_other (m : String → Option TaskHash) (id k : String) (h : TaskHash)
    (hk : k ≠ id) : updateTask m id h k = m k := by
  simp [updateTask, hk]

/-- LREM key 1 value: drop the first occurrence, scanning from the head. -/
def removeOne : List String → String → List String
  | [], _ => []
  | x :: xs, a => if x = a then xs else x :: removeOne xs a

/-- `add_task(task_data)`: mint the id from the millisecond clock, write the
hash with status pending and retry_count 0, RPUSH the id onto the tail of
`pending`; returns the id. -/
def add_task (s : QState) (t_ms : Nat) (now : ℚ) (d : String) : String × QState :=
  let id := taskIdOf t_ms
  let h : TaskHash :=
    { task_id := some id, data := some d, status := some "pending",
      created_at := some now, retry_count := some 0 }
  (id, { s with tasks := updateTask s.tasks id h, pending := s.pending ++ [id] })

/-- `get_task(worker_id, timeout)`: BRPOPLPUSH pops the tail of `pending`
and pushes it onto the head of `processing`; an id whose hash is missing is
LREMed back out and dropped; otherwise the hash is read (before the
metadata update) and status, worker_id, started_at are written. An empty
`pending` is the timeout case. -/
def get_task (s : QState) (worker : String) (now : ℚ) : Option TaskHash × QState :=
  match s.pending.getLast? with
  | none => (none, s)
  | some id =>
    match s.tasks id with
    | none =>
      (none, { s with pending := s.pending.dropLast,
                      processing := removeOne (id :: s.processing) id })
    | some h =>
      (some h,
       { s with pending := s.pending.dropLast,
                processing := id :: s.processing,
                tasks := updateTask s.tasks id
                  { h with status := some "processing", worker_id := some worker,
                           started_at := some now } })

/-- `mark_completed(task_id, result)`: LREM one occurrence out of
`processing`, set status and completed_at (and result when given), and
RPUSH the id onto `completed` - unconditionally. -/
def mark_completed (s : QState) (id : String) (now : ℚ) (result : Option String) :
    QState :=
  let h := (s.tasks id).getD {}
  let h2 : TaskHash :=
    { h with status := some "completed", completed_at := some now,
             result := if result.isSome then result else h.result }
  { s with processing := removeOne s.processing id,
           tasks := updateTask s.tasks id h2,
           completed := s.completed ++ [id] }

/-- `mark_failed(task_id, error_message, should_retry)`: LREM out of
`processing`, bump retry_count, record last_error and failed_at; if
`should_retry` and the bumped count is below `max_retries` the task goes
back to the tail of `pending` with status failed, otherwise it goes to the
tail of `dead_letter` with status dead. -/
def mark_failed (s : QState) (id : String) (err : String) (should_retry : Bool)
    (now : ℚ) : QState :=
  let h := (s.tasks id).getD {}
  let rc := h.retry_count.getD 0 + 1
  let h2 : TaskHash :=
    { h with retry_count := some rc, last_error := some err, failed_at := some now }
  if should_retry ∧ rc < s.max_retries then
    { s with processing := removeOne s.processing id,
             tasks := updateTask s.tasks id { h2 with status := some "failed" },
             pending := s.pending ++ [id] }
  else
    { s with processing := removeOne s.processing id,
             tasks := updateTask s.tasks id { h2 with status := some "dead" },
             dead_letter := s.dead_letter ++ [id] }

/-- `retry_dead_letter_task(task_id)`: LREM one occurrence out of
`dead_letter`; when one was there, reset retry_count, set status pending
and RPUSH onto the tail of `pending`. -/
def retry_dead_letter_task (s : QState) (id : String) : QState :=
  if id ∈ s.dead_letter then
    let h := (s.tasks id).getD {}
    { s with dead_letter := removeOne s.dead_letter id,
             tasks := updateTask s.tasks id
               { h with retry_count := some 0, status := some "pending" },
             pending := s.pending ++ [id] }
  else s

/-- One client call against the queue, for reasoning about whole runs. -/
inductive QOp where
  | add (t_ms : Nat) (now : ℚ) (d : String)
  | claim (worker : String) (now : ℚ)
  | complete (id : String) (now : ℚ) (result : Option String)
  | fail (id : String) (err : String) (should_retry : Bool) (now : ℚ)
  | retryDead (id : String)

/-- Apply one call to the queue state. -/
def stepQ (s : QState) : QOp → QState
  | .add t now d => (add_task s t now d).2
  | .claim w now => (get_task s w now).2
  | .complete id now r => mark_completed s id now r
  | .fail id e b now => mark_failed s id e b now
  | .retryDead id => retry_dead_letter_task s id

/-- Run a sequence of calls against a fresh queue. -/
def runQ (ops : List QOp) : QState := ops.foldl stepQ emptyQ

theorem removeOne_of_not_mem (l : List String) (a : String) (h : a ∉ l) :
    removeOne l a = l := by
  induction l with
  | nil => rfl
  | cons x xs ih =>
    have hxa : x ≠ a := fun he => h (he ▸ List.mem_cons_self x xs)
    have hxs : a ∉ xs := fun hm => h (List.mem_cons_of_mem x hm)
    simp [removeOne, hxa, ih hxs]

theorem not_mem_removeOne_of_count_le_one (l : List String) (a : String)
    (h : l.count a ≤ 1) : a ∉ removeOne l a := by
  induction l with
  | nil => simp [removeOne]
  | cons x xs ih =>
    by_cases hxa : x = a
    · subst hxa
      have hz : xs.count x = 0 := by
        have := List.count_cons_self x xs
        omega
      simp only [removeOne, if_pos rfl]
      exact (List.count_eq_zero.mp hz)
    · have hc : xs.count a ≤ 1 := by
        have := List.count_cons a x xs
        simp [hxa] at this
        omega
      simp only [removeOne, if_neg hxa]
      intro hm
      rcases List.mem_cons.mp hm with he | hm2
      · exact hxa he.symm
      · exact ih hc hm2

/-- C1 evidence: two submissions through `add_task` (milliseconds 1000 and
2000) land in `pending` in submission order, yet the first `get_task` claims
`task-2000`, the newest one, and leaves `task-1000` in `pending`: RPUSH
paired with BRPOPLPUSH serves the list LIFO, not FIFO. -/
theorem c1_fifo_violated_eval :
    (add_task (add_task emptyQ 1000 0 "a").2 2000 0 "b").2.pending
        = ["task-1000", "task-2000"]
    ∧ ((get_task (add_task (add_task emptyQ 1000 0 "a").2 2000 0 "b").2 "w" 1).1.map
        TaskHash.task_id = some (some "task-2000"))
    ∧ "task-1000" ∈
        (get_task (add_task (add_task emptyQ 1000 0 "a").2 2000 0 "b").2 "w" 1).2.pending := by
  decide

/-- C6 counterexample: two `add_task` calls within the same millisecond
(stamp 1700000000000) return the very same id, and `pending` holds that id
twice; the claim promises distinct ids even within one millisecond. -/
theorem c6_same_millisecond_collision :
    (add_task emptyQ 1700000000000 0 "a").1
      = (add_task (add_task emptyQ 1700000000000 0 "a").2 1700000000000 0 "b").1
    ∧ (add_task (add_task emptyQ 1700000000000 0 "a").2 1700000000000 0 "b").2.pending
      = ["task-1700000000000", "task-1700000000000"] := by
  decide

/-- C6 amended: an `add_task` call returns exactly `task-` followed by the
decimal millisecond stamp, so calls in distinct milliseconds return
distinct ids, while any two calls within one millisecond return the same
id, whatever the rest of the state. -/
theorem c6_ids_distinct_across_milliseconds (s1 s2 : QState) (t1 t2 : Nat)
    (n1 n2 : ℚ) (d1 d2 : String) (h : t1 ≠ t2) :
    (add_task s1 t1 n1 d1).1 ≠ (add_task s2 t2 n2 d2).1
    ∧ (add_task s1 t1 n1 d1).1 = taskIdOf t1
    ∧ ∀ s3 n3 d3, (add_task s3 t1 n3 d3).1 = (add_task s1 t1 n1 d1).1 :=
  ⟨fun hc => h (taskIdOf_injective hc), rfl, fun _ _ _ => rfl⟩

/-- C6 witness: the amended statement at stamps 1000 and 1001. -/
theorem c6_ids_distinct_witness :
    (add_task emptyQ 1000 0 "a").1 ≠ (add_task emptyQ 1001 0 "b").1
    ∧ (add_task emptyQ 1000 0 "a").1 = taskIdOf 1000
    ∧ ∀ s3 n3 d3, (add_task s3 1000 n3 d3).1 = (add_task emptyQ 1000 0 "a").1 :=
  c6_ids_distinct_across_milliseconds emptyQ emptyQ 1000 1001 0 0 "a" "b" (by decide)

/-- C2 counterexample: add, claim and complete one task, then call
`mark_completed` again on the same id: the `completed` list grows from one
entry to two, though the claim says a second call leaves it unchanged. -/
theorem c2_second_completion_grows_list :
    (runQ [QOp.add 1000 0 "d", QOp.claim "w" 1,
           QOp.complete "task-1000" 2 none]).completed = ["task-1000"]
    ∧ (runQ [QOp.add 1000 0 "d", QOp.claim "w" 1, QOp.complete "task-1000" 2 none,
             QOp.complete "task-1000" 3 none]).completed
        = ["task-1000", "task-1000"] := by
  decide

/-- C2 amended: after a first `mark_completed` whose LREM consumed the only
occurrence of the id in `processing`, a second `mark_completed` leaves
`pending`, `processing`, `failed` and `dead_letter` untouched and rewrites
the hash only at `completed_at`, but it RPUSHes the id onto `completed`
again, so the completed list grows by one entry per repeated call: the
operation is not idempotent. -/
theorem c2_mark_completed_not_idempotent (s : QState) (id : String) (now now2 : ℚ)
    (res : Option String) (hcount : s.processing.count id ≤ 1) :
    (mark_completed (mark_completed s id now res) id now2 res).pending
        = (mark_completed s id now res).pending
    ∧ (mark_completed (mark_completed s id now res) id now2 res).processing
        = (mark_completed s id now res).processing
    ∧ (mark_completed (mark_completed s id now res) id now2 res).failed
        = (mark_completed s id now res).failed
    ∧ (mark_completed (mark_completed s id now res) id now2 res).dead_letter
        = (mark_completed s id now res).dead_letter
    ∧ (mark_completed (mark_completed s id now res) id now2 res).completed
        = (mark_completed s id now res).completed ++ [id]
    ∧ (mark_completed (mark_completed s id now res) id now2 res).tasks
        = updateTask (mark_completed s id now res).tasks id
            { ((mark_completed s id now res).tasks id).getD {} with
              completed_at := some now2 } := by
  have hno : id ∉ removeOne s.processing id :=
    not_mem_removeOne_of_count_le_one s.processing id hcount
  refine ⟨rfl, ?_, rfl, rfl, rfl, ?_⟩
  · simp only [mark_completed]
    exact removeOne_of_not_mem _ _ hno
  · simp only [mark_completed]
    simp only [updateTask]
    cases res <;> simp

/-- C2 witness: the amended statement on the concrete run that adds one
task, claims it and completes it twice. -/
theorem c2_mark_completed_witness :
    (mark_completed (mark_completed (runQ [QOp.add 1000 0 "d", QOp.claim "w" 1])
          "task-1000" 2 none) "task-1000" 3 none).pending
        = (mark_completed (runQ [QOp.add 1000 0 "d", QOp.claim "w" 1])
            "task-1000" 2 none).pending
    ∧ (mark_completed (mark_completed (runQ [QOp.add 1000 0 "d", QOp.claim "w" 1])
          "task-1000" 2 none) "task-1000" 3 none).processing
        = (mark_completed (runQ [QOp.add 1000 0 "d", QOp.claim "w" 1])
            "task-1000" 2 none).processing
    ∧ (mark_completed (mark_completed (runQ [QOp.add 1000 0 "d", QOp.claim "w" 1])
          "task-1000" 2 none) "task-1000" 3 none).failed
        = (mark_completed (runQ [QOp.add 1000 0 "d", QOp.claim "w" 1])
            "task-1000" 2 none).failed
    ∧ (mark_completed (mark_completed (runQ [QOp.add 1000 0 "d", QOp.claim "w" 1])
          "task-1000" 2 none) "task-1000" 3 none).dead_letter
        = (mark_completed (runQ [QOp.add 1000 0 "d", QOp.claim "w" 1])
            "task-1000" 2 none).dead_letter
    ∧ (mark_completed (mark_completed (runQ [QOp.add 1000 0 "d", QOp.claim "w" 1])
          "task-1000" 2 none) "task-1000" 3 none).completed
        = (mark_completed (runQ [QOp.add 1000 0 "d", QOp.claim "w" 1])
            "task-1000" 2 none).completed ++ ["task-1000"]
    ∧ (mark_completed (mark_completed (runQ [QOp.add 1000 0 "d", QOp.claim "w" 1])
          "task-1000" 2 none) "task-1000" 3 none).tasks
        = updateTask (mark_completed (runQ [QOp.add 1000 0 "d", QOp.claim "w" 1])
              "task-1000" 2 none).tasks "task-1000"
            { ((mark_completed (runQ [QOp.add 1000 0 "d", QOp.claim "w" 1])
                  "task-1000" 2 none).tasks "task-1000").getD {} with
              completed_at := some 3 } :=
  c2_mark_completed_not_idempotent (runQ [QOp.add 1000 0 "d", QOp.claim "w" 1])
    "task-1000" 2 3 none (by decide)

/-- The retry counter `mark_failed` writes: the stored one, bumped by one. -/
def bumped_retry (s : QState) (id : String) : Nat :=
  ((s.tasks id).getD {}).retry_count.getD 0 + 1

/-- C3: `mark_failed` removes one occurrence of the id from `processing` and
stores the bumped retry counter; when `should_retry` holds and the bumped
counter is below `max_retries` it sets status failed and RPUSHes the id onto
the tail of `pending`, otherwise it sets status dead and RPUSHes onto
`dead_letter`; and a re-enqueued task is never claimed before newer work:
after any later `add_task`, the next `get_task` returns that newer task and
leaves the retried id in `pending`. -/
theorem c3_mark_failed_spec (s : QState) (id err : String) (retry : Bool) (now : ℚ) :
    (mark_failed s id err retry now).processing = removeOne s.processing id
    ∧ ((mark_failed s id err retry now).tasks id).map TaskHash.retry_count
        = some (some (bumped_retry s id))
    ∧ ((mark_failed s id err retry now).tasks id).map TaskHash.status
        = some (some (if retry ∧ bumped_retry s id < s.max_retries
                      then "failed" else "dead"))
    ∧ (mark_failed s id err retry now).pending
        = (if retry ∧ bumped_retry s id < s.max_retries
           then s.pending ++ [id] else s.pending)
    ∧ (mark_failed s id err retry now).dead_letter
        = (if retry ∧ bumped_retry s id < s.max_retries
           then s.dead_letter else s.dead_letter ++ [id])
    ∧ (retry = true → bumped_retry s id < s.max_retries →
        ∀ (t2 : Nat) (now2 : ℚ) (d2 w : String) (now3 : ℚ),
          ((get_task ((add_task (mark_failed s id err retry now) t2 now2 d2).2) w
              now3).1.map TaskHash.task_id = some (some (taskIdOf t2)))
          ∧ id ∈ (get_task ((add_task (mark_failed s id err retry now) t2 now2 d2).2) w
              now3).2.pending) := by
  by_cases hc : retry = true ∧ bumped_retry s id < s.max_retries
  · obtain ⟨h1, h2⟩ := hc
    subst h1
    have h2e : ((s.tasks id).getD {}).retry_count.getD 0 + 1 < s.max_retries := h2
    refine ⟨?_, ?_, ?_, ?_, ?_, ?_⟩
    · simp [mark_failed, h2e]
    · simp [mark_failed, updateTask_self, bumped_retry, h2e]
    · simp [mark_failed, updateTask_self, bumped_retry, h2e, h2]
    · simp [mark_failed, bumped_retry, h2e, h2]
    · simp [mark_failed, bumped_retry, h2e, h2]
    · intro _ _ t2 now2 d2 w now3
      simp [mark_failed, add_task, get_task, updateTask_self, h2e]
  · have hns : ¬ ((retry = true) ∧
        ((s.tasks id).getD {}).retry_count.getD 0 + 1 < s.max_retries) := by
      simpa [bumped_retry] using hc
    have hcb : ¬ (retry = true ∧ bumped_retry s id < s.max_retries) := hc
    refine ⟨?_, ?_, ?_, ?_, ?_, ?_⟩
    · simp [mark_failed, hns]
    · simp [mark_failed, updateTask_self, hns, bumped_retry]
    · simp [mark_failed, updateTask_self, hns, bumped_retry, hcb]
    · simp [mark_failed, hns, hcb, bumped_retry]
    · simp [mark_failed, hns, hcb, bumped_retry]
    · intro h1 h2
      exact absurd ⟨h1, h2⟩ hc

/-- C3 witness: the spec of `mark_failed` at a concrete claimed task (retry
count 0, `max_retries` 3, so the failure re-enqueues), followed by a newer
submission that is claimed first. -/
theorem c3_mark_failed_witness :
    ((mark_failed (runQ [QOp.add 1000 0 "d", QOp.claim "w" 1]) "task-1000" "boom"
        true 2).processing
      = removeOne (runQ [QOp.add 1000 0 "d", QOp.claim "w" 1]).processing "task-1000")
    ∧ (((mark_failed (runQ [QOp.add 1000 0 "d", QOp.claim "w" 1]) "task-1000" "boom"
        true 2).tasks "task-1000").map TaskHash.retry_count
      = some (some (bumped_retry (runQ [QOp.add 1000 0 "d", QOp.claim "w" 1]) "task-1000")))
    ∧ (((mark_failed (runQ [QOp.add 1000 0 "d", QOp.claim "w" 1]) "task-1000" "boom"
        true 2).tasks "task-1000").map TaskHash.status
      = some (some (if true ∧ bumped_retry (runQ [QOp.add 1000 0 "d", QOp.claim "w" 1])
            "task-1000" < (runQ [QOp.add 1000 0 "d", QOp.claim "w" 1]).max_retries
          then "failed" else "dead")))
    ∧ ((mark_failed (runQ [QOp.add 1000 0 "d", QOp.claim "w" 1]) "task-1000" "boom"
        true 2).pending
      = (if true ∧ bumped_retry (runQ [QOp.add 1000 0 "d", QOp.claim "w" 1])
            "task-1000" < (runQ [QOp.add 1000 0 "d", QOp.claim "w" 1]).max_retries
         then (runQ [QOp.add 1000 0 "d", QOp.claim "w" 1]).pending ++ ["task-1000"]
         else (runQ [QOp.add 1000 0 "d", QOp.claim "w" 1]).pending))
    ∧ ((mark_failed (runQ [QOp.add 1000 0 "d", QOp.claim "w" 1]) "task-1000" "boom"
        true 2).dead_letter
      = (if true ∧ bumped_retry (runQ [QOp.add 1000 0 "d", QOp.claim "w" 1])
            "task-1000" < (runQ [QOp.add 1000 0 "d", QOp.claim "w" 1]).max_retries
         then (runQ [QOp.add 1000 0 "d", QOp.claim "w" 1]).dead_letter
         else (runQ [QOp.add 1000 0 "d", QOp.claim "w" 1]).dead_letter ++ ["task-1000"]))
    ∧ ((true = true → bumped_retry (runQ [QOp.add 1000 0 "d", QOp.claim "w" 1])
          "task-1000" < (runQ [QOp.add 1000 0 "d", QOp.claim "w" 1]).max_retries →
        ∀ (t2 : Nat) (now2 : ℚ) (d2 w : String) (now3 : ℚ),
          ((get_task ((add_task (mark_failed (runQ [QOp.add 1000 0 "d", QOp.claim "w" 1])
              "task-1000" "boom" true 2) t2 now2 d2).2) w now3).1.map TaskHash.task_id
            = some (some (taskIdOf t2)))
          ∧ "task-1000" ∈ (get_task ((add_task (mark_failed
              (runQ [QOp.add 1000 0 "d", QOp.claim "w" 1]) "task-1000" "boom" true 2)
              t2 now2 d2).2) w now3).2.pending)) :=
  c3_mark_failed_spec (runQ [QOp.add 1000 0 "d", QOp.claim "w" 1]) "task-1000" "boom"
    true 2

/-- A stored task hash only ever carries one of the five statuses. -/
def statusLegal : Option TaskHash → Prop
  | none => True
  | some h =>
      h.status = some "pending" ∨ h.status = some "processing"
        ∨ h.status = some "completed" ∨ h.status = some "failed"
        ∨ h.status = some "dead"

/-- The state invariant the queue actually maintains: the `failed` list is
never written, every stored status is one of the five, and a task whose
status is failed sits in the `pending` list (awaiting its retry). -/
def qinv (s : QState) : Prop :=
  s.failed = []
  ∧ (∀ id, statusLegal (s.tasks id))
  ∧ (∀ id h, s.tasks id = some h → h.status = some "failed" → id ∈ s.pending)

theorem mem_dropLast_of_ne_getLast (l : List String) (c a : String)
    (hl : l.getLast? = some c) (ha : a ∈ l) (hne : a ≠ c) : a ∈ l.dropLast := by
  have hnil : l ≠ [] := by
    rintro rfl
    simp at hl
  have hg : l.getLast hnil = c := by
    have he := List.getLast?_eq_getLast_of_ne_nil hnil
    rw [he] at hl
    exact Option.some_injective _ hl
  have hsplit : l.dropLast ++ [l.getLast hnil] = l := List.dropLast_append_getLast hnil
  rw [← hsplit] at ha
  rcases List.mem_append.mp ha with h | h
  · exact h
  · exact absurd (hg ▸ List.mem_singleton.mp h) hne

theorem qinv_empty : qinv emptyQ := by
  refine ⟨rfl, ?_, ?_⟩
  · intro id
    simp [emptyQ, statusLegal]
  · intro id h hh
    simp [emptyQ] at hh

theorem qinv_stepQ (s : QState) (op : QOp) (hs : qinv s) : qinv (stepQ s op) := by
  obtain ⟨hf, hleg, hfail⟩ := hs
  cases op with
  | add t now d =>
    refine ⟨by simp [stepQ, add_task, hf], ?_, ?_⟩
    · intro id
      by_cases hid : id = taskIdOf t
      · subst hid
        simp [stepQ, add_task, updateTask_self, statusLegal]
      · simp only [stepQ, add_task]
        rw [updateTask_other _ _ _ _ hid]
        exact hleg id
    · intro id h hh hst
      simp only [stepQ, add_task] at hh ⊢
      by_cases hid : id = taskIdOf t
      · subst hid
        rw [updateTask_self] at hh
        cases hh
        simp at hst
      · rw [updateTask_other _ _ _ _ hid] at hh
        exact List.mem_append_left _ (hfail id h hh hst)
  | claim w now =>
    cases hlast : s.pending.getLast? with
    | none =>
      simp only [stepQ, get_task, hlast]
      exact ⟨hf, hleg, hfail⟩
    | some c =>
      cases htask : s.tasks c with
      | none =>
        simp only [stepQ, get_task, hlast, htask]
        refine ⟨hf, hleg, ?_⟩
        intro id h hh hst
        have hne : id ≠ c := by
          intro he
          rw [he, htask] at hh
          cases hh
        exact mem_dropLast_of_ne_getLast _ _ _ hlast (hfail id h hh hst) hne
      | some h0 =>
        simp only [stepQ, get_task, hlast, htask]
        refine ⟨hf, ?_, ?_⟩
        · intro id
          dsimp only
          by_cases hid : id = c
          · subst hid
            simp [updateTask_self, statusLegal]
          · rw [updateTask_other _ _ _ _ hid]
            exact hleg id
        · intro id h hh hst
          dsimp only at hh ⊢
          by_cases hid : id = c
          · subst hid
            rw [updateTask_self] at hh
            cases hh
            simp at hst
          · rw [updateTask_other _ _ _ _ hid] at hh
            exact mem_dropLast_of_ne_getLast _ _ _ hlast (hfail id h hh hst) hid
  | complete id0 now r =>
    refine ⟨by simp [stepQ, mark_completed, hf], ?_, ?_⟩
    · intro id
      by_cases hid : id = id0
      · subst hid
        simp [stepQ, mark_completed, updateTask_self, statusLegal]
      · simp only [stepQ, mark_completed]
        rw [updateTask_other _ _ _ _ hid]
        exact hleg id
    · intro id h hh hst
      simp only [stepQ, mark_completed] at hh ⊢
      by_cases hid : id = id0
      · subst hid
        rw [updateTask_self] at hh
        cases hh
        simp at hst
      · rw [updateTask_other _ _ _ _ hid] at hh
        exact hfail id h hh hst
  | fail id0 err b now =>
    by_cases hc : (b = true) ∧ ((s.tasks id0).getD {}).retry_count.getD 0 + 1 < s.max_retries
    · refine ⟨by simp [stepQ, mark_failed, hc.1, hc.2, hf], ?_, ?_⟩
      · intro id
        by_cases hid : id = id0
        · subst hid
          simp [stepQ, mark_failed, hc.1, hc.2, updateTask_self, statusLegal]
        · simp only [stepQ, mark_failed]
          rw [if_pos hc]
          dsimp only
          rw [updateTask_other _ _ _ _ hid]
          exact hleg id
      · intro id h hh hst
        simp only [stepQ, mark_failed] at hh ⊢
        rw [if_pos hc] at hh ⊢
        dsimp only at hh ⊢
        by_cases hid : id = id0
        · subst hid
          simp
        · rw [updateTask_other _ _ _ _ hid] at hh
          exact List.mem_append_left _ (hfail id h hh hst)
    · refine ⟨by simp [stepQ, mark_failed, hc, hf], ?_, ?_⟩
      · intro id
        by_cases hid : id = id0
        · subst hid
          simp [stepQ, mark_failed, hc, updateTask_self, statusLegal]
        · simp only [stepQ, mark_failed]
          rw [if_neg hc]
          dsimp only
          rw [updateTask_other _ _ _ _ hid]
          exact hleg id
      · intro id h hh hst
        simp only [stepQ, mark_failed] at hh ⊢
        rw [if_neg hc] at hh ⊢
        dsimp only at hh ⊢
        by_cases hid : id = id0
        · subst hid
          rw [updateTask_self] at hh
          cases hh
          simp at hst
        · rw [updateTask_other _ _ _ _ hid] at hh
          exact hfail id h hh hst
  | retryDead id0 =>
    by_cases hd : id0 ∈ s.dead_letter
    · refine ⟨by simp [stepQ, retry_dead_letter_task, hd, hf], ?_, ?_⟩
      · intro id
        by_cases hid : id = id0
        · subst hid
          simp [stepQ, retry_dead_letter_task, hd, updateTask_self, statusLegal]
        · simp only [stepQ, retry_dead_letter_task]
          rw [if_pos hd]
          dsimp only
          rw [updateTask_other _ _ _ _ hid]
          exact hleg id
      · intro id h hh hst
        simp only [stepQ, retry_dead_letter_task] at hh ⊢
        rw [if_pos hd] at hh ⊢
        dsimp only at hh ⊢
        by_cases hid : id = id0
        · subst hid
          rw [updateTask_self] at hh
          cases hh
          simp at hst
        · rw [updateTask_other _ _ _ _ hid] at hh
          exact List.mem_append_left _ (hfail id h hh hst)
    · simp only [stepQ, retry_dead_letter_task, if_neg hd]
      exact ⟨hf, hleg, hfail⟩

/-- C4 counterexample: on the run add, claim, fail (with retries left) the
task hash reads status failed while the id sits in `pending` and the
`failed` list is empty - the claim places a failed-status task in the
failed list, which never happens. -/
theorem c4_failed_status_not_in_failed_list :
    ((runQ [QOp.add 1000 0 "d", QOp.claim "w" 1,
        QOp.fail "task-1000" "boom" true 2]).tasks "task-1000").map TaskHash.status
      = some (some "failed")
    ∧ (runQ [QOp.add 1000 0 "d", QOp.claim "w" 1,
        QOp.fail "task-1000" "boom" true 2]).failed = []
    ∧ "task-1000" ∈ (runQ [QOp.add 1000 0 "d", QOp.claim "w" 1,
        QOp.fail "task-1000" "boom" true 2]).pending := by
  decide

/-- C4 amended: in every state reachable by queue calls from a fresh queue,
every stored status is one of pending, processing, completed, failed, dead;
the `failed` list is never written (it stays empty, the status failed names
a retry waiting in `pending`, not membership in the failed list); and every
task whose status reads failed is in the `pending` list. -/
theorem c4_status_lists_invariant (ops : List QOp) :
    (runQ ops).failed = []
    ∧ (∀ id, statusLegal ((runQ ops).tasks id))
    ∧ (∀ id h, (runQ ops).tasks id = some h → h.status = some "failed" →
        id ∈ (runQ ops).pending) := by
  have main : ∀ (l : List QOp) (s0 : QState), qinv s0 → qinv (l.foldl stepQ s0) := by
    intro l
    induction l with
    | nil => intro s0 h0; simpa using h0
    | cons op rest ih => intro s0 h0; exact ih _ (qinv_stepQ s0 op h0)
  exact main ops emptyQ qinv_empty

/-- C4 witness: the invariant evaluated on the run add, claim, fail. -/
theorem c4_invariant_witness :
    (runQ [QOp.add 1000 0 "d", QOp.claim "w" 1,
        QOp.fail "task-1000" "boom" true 2]).failed = []
    ∧ statusLegal ((runQ [QOp.add 1000 0 "d", QOp.claim "w" 1,
        QOp.fail "task-1000" "boom" true 2]).tasks "task-1000") :=
  ⟨(c4_status_lists_invariant [QOp.add 1000 0 "d", QOp.claim "w" 1,
      QOp.fail "task-1000" "boom" true 2]).1,
   (c4_status_lists_invariant [QOp.add 1000 0 "d", QOp.claim "w" 1,
      QOp.fail "task-1000" "boom" true 2]).2.1 "task-1000"⟩

/-! ## WorkerRegistry (workers/worker_registry.py)

One Redis hash per worker under `worker_registry:workers:{worker_id}`,
modelled as an association list keyed by worker id. `last_heartbeat` stores
`time.time()`, a rational here; the other fields of interest are strings.
Redis HSET returns the number of fields it newly created - an int, which is
never None in Python, so `send_heartbeat` checks a condition that cannot
fail. -/

/-- The per-worker hash: a field is `none` until some HSET writes it. -/
structure WHash where
  worker_id : Option String := none
  registered_at : Option ℚ := none
  last_heartbeat : Option ℚ := none
  status : Option String := none
deriving DecidableEq, Repr

/-- The registry keyspace: worker hashes in Redis key order. -/
abbrev RegState : Type := List (String × WHash)

/-- Read one worker hash (`HGETALL`): `none` when the key is absent. -/
def lookupW : RegState → String → Option WHash
  | [], _ => none
  | (k, h) :: rest, w => if k = w then some h else lookupW rest w

/-- Store a worker hash under its key, creating the key at the end of the
keyspace when it is new (as HSET does). -/
def upsertW : RegState → String → WHash → RegState
  | [], w, h => [(w, h)]
  | (k, h0) :: rest, w, h => if k = w then (k, h) :: rest else (k, h0) :: upsertW rest w h

/-- Python `x is not None` applied to the int HSET returns: an int is never
None, so this is constantly true whatever the count of new fields was. -/
def int_is_not_none (_count : Nat) : Bool := true

/-- `send_heartbeat(worker_id)`: HSET only the `last_heartbeat` field (the
key is created when absent) and return whether the int HSET produced
`is not None`. -/
def send_heartbeat (s : RegState) (wid : String) (t : ℚ) : Bool × RegState :=
  let old := (lookupW s wid).getD {}
  let fields_added := if old.last_heartbeat.isSome then 0 else 1
  (int_is_not_none fields_added, upsertW s wid { old with last_heartbeat := some t })

/-- `get_active_workers()`: walk every worker key, read the hash, parse
`last_heartbeat` (0 when the field is absent), and keep the workers whose
heartbeat is younger than `heartbeat_timeout`, each augmented with its
`time_since_heartbeat` and `is_alive := true`. -/
def get_active_workers : RegState → ℚ → ℚ → List (WHash × ℚ × Bool)
  | [], _, _ => []
  | (_, h) :: rest, now, tmo =>
    let ts := now - h.last_heartbeat.getD 0
    if ts < tmo then (h, ts, true) :: get_active_workers rest now tmo
    else get_active_workers rest now tmo

theorem lookupW_upsert_self (s : RegState) (w : String) (h : WHash) :
    lookupW (upsertW s w h) w = some h := by
  induction s with
  | nil => simp [upsertW, lookupW]
  | cons p rest ih =>
    obtain ⟨k, h0⟩ := p
    by_cases hk : k = w
    · simp [upsertW, lookupW, hk]
    · simp [upsertW, lookupW, hk, ih]

theorem lookupW_upsert_other (s : RegState) (w w2 : String) (h : WHash)
    (hne : w2 ≠ w) : lookupW (upsertW s w h) w2 = lookupW s w2 := by
  have hne2 : w ≠ w2 := Ne.symm hne
  induction s with
  | nil => simp [upsertW, lookupW, hne2]
  | cons p rest ih =>
    obtain ⟨k, h0⟩ := p
    by_cases hk : k = w
    · subst hk
      simp [upsertW, lookupW, hne2]
    · simp [upsertW, lookupW, hk, ih]

theorem upsertW_absent (s : RegState) (w : String) (h : WHash)
    (habs : lookupW s w = none) : upsertW s w h = s ++ [(w, h)] := by
  induction s with
  | nil => simp [upsertW]
  | cons p rest ih =>
    obtain ⟨k, h0⟩ := p
    by_cases hk : k = w
    · simp [lookupW, hk] at habs
    · simp only [lookupW, if_neg hk] at habs
      simp [upsertW, hk, ih habs]

theorem get_active_workers_append (l1 l2 : RegState) (now tmo : ℚ) :
    get_active_workers (l1 ++ l2) now tmo
      = get_active_workers l1 now tmo ++ get_active_workers l2 now tmo := by
  induction l1 with
  | nil => simp [get_active_workers]
  | cons p rest ih =>
    obtain ⟨k, h⟩ := p
    by_cases hc : now - h.last_heartbeat.getD 0 < tmo
    · simp [get_active_workers, hc, ih]
    · simp [get_active_workers, hc, ih]

/-- C5 counterexample: a heartbeat for a worker id with no registry record.
The `last_heartbeat` field did not exist before the call, yet the call
returns true - the boolean does not report whether the field existed,
because Python tests the int HSET returns against None. -/
theorem c5_return_value_not_prior_existence :
    (send_heartbeat [] "w1" 100).1 = true
    ∧ ((lookupW ([] : RegState) "w1").getD {}).last_heartbeat.isSome = false := by
  decide

/-- C5 amended: `send_heartbeat` rewrites exactly the `last_heartbeat` field
of that worker hash (all other fields of that hash, and every other worker
hash, are unchanged) and always returns true, whether or not the field
existed before the call. -/
theorem c5_heartbeat_frame (s : RegState) (wid : String) (t : ℚ) :
    (send_heartbeat s wid t).1 = true
    ∧ lookupW (send_heartbeat s wid t).2 wid
        = some { (lookupW s wid).getD {} with last_heartbeat := some t }
    ∧ ∀ w2, w2 ≠ wid → lookupW (send_heartbeat s wid t).2 w2 = lookupW s w2 := by
  refine ⟨rfl, ?_, ?_⟩
  · simp only [send_heartbeat]
    exact lookupW_upsert_self s wid _
  · intro w2 hw
    simp only [send_heartbeat]
    exact lookupW_upsert_other s wid w2 _ hw

/-- A concrete registered worker hash, used as a test fixture. -/
def w1Hash : WHash :=
  { worker_id := some "w1", registered_at := some 7, last_heartbeat := some 7,
    status := some "active" }

/-- C5 witness: the frame statement on a registry holding one registered
worker, heartbeaten at instant 100. -/
theorem c5_heartbeat_frame_witness :
    (send_heartbeat [("w1", w1Hash)] "w1" 100).1 = true
    ∧ lookupW (send_heartbeat [("w1", w1Hash)] "w1" 100).2 "w1"
        = some { (lookupW [("w1", w1Hash)] "w1").getD {} with last_heartbeat := some 100 }
    ∧ ∀ w2, w2 ≠ "w1" →
        lookupW (send_heartbeat [("w1", w1Hash)] "w1" 100).2 w2
          = lookupW [("w1", w1Hash)] w2 :=
  c5_heartbeat_frame [("w1", w1Hash)] "w1" 100

/-- C10: a heartbeat for an unregistered worker id does not fail: it
returns true and creates a hash holding only `last_heartbeat`, and while
that heartbeat is fresh, `get_active_workers` returns the phantom record
(which has no worker_id, registered_at or status field). -/
theorem c10_phantom_worker (s : RegState) (wid : String) (t now tmo : ℚ)
    (habs : lookupW s wid = none) (hfresh : now - t < tmo) :
    (send_heartbeat s wid t).1 = true
    ∧ lookupW (send_heartbeat s wid t).2 wid
        = some { worker_id := none, registered_at := none,
                 last_heartbeat := some t, status := none }
    ∧ ((({ last_heartbeat := some t } : WHash), now - t, true)
        ∈ get_active_workers (send_heartbeat s wid t).2 now tmo) := by
  refine ⟨rfl, ?_, ?_⟩
  · simp only [send_heartbeat, habs, Option.getD_none]
    exact lookupW_upsert_self s wid _
  · simp only [send_heartbeat, habs]
    rw [upsertW_absent s wid _ habs]
    rw [get_active_workers_append]
    refine List.mem_append_right _ ?_
    simp [get_active_workers, hfresh]

/-- C10 witness: the phantom-worker statement on an empty registry, a
heartbeat at instant 5 observed at instant 10 with timeout 30. -/
theorem c10_phantom_worker_witness :
    (send_heartbeat [] "ghost" 5).1 = true
    ∧ lookupW (send_heartbeat [] "ghost" 5).2 "ghost"
        = some { worker_id := none, registered_at := none,
                 last_heartbeat := some 5, status := none }
    ∧ ((({ last_heartbeat := some 5 } : WHash), 10 - 5, true)
        ∈ get_active_workers (send_heartbeat [] "ghost" 5).2 10 30) :=
  c10_phantom_worker [] "ghost" 5 10 30 (by decide) (by norm_num)

/-! ## Filters, FilterPipeline and FilterFactory (filters/, core/)

Concrete filter math is out of scope: an image is a free term over the four
transforms, so every concrete filter is an opaque pure function with
decidable equality of results. A pipeline element is a name plus a fallible
step (`BaseFilter.apply` may raise); the concrete filters never fail.
`save_intermediate` writes files, a side effect outside the model, so the
flag is carried but has no observable effect here. -/

/-- Images as a free term algebra over the four PIL transforms. -/
inductive Image where
  | src (tag : Nat)
  | blurred (radius : Int) (img : Image)
  | brightened (factor : ℚ) (img : Image)
  | edged (img : Image)
  | grayed (img : Image)
deriving DecidableEq, Repr

/-- `image.copy()`: a fresh image equal to the input. -/
def Image.copy (img : Image) : Image := img

/-- One pipeline element: the class name and the (fallible) `apply`. -/
structure PFilter where
  name : String
  run : Image → Except String Image

/-- One entry of the per-step stats list (times are wall clock and are not
modelled). -/
structure StepStat where
  name : String
  index : Nat
  status : String
  error : Option String := none
deriving DecidableEq, Repr

/-- `BlurFilter(radius)`: rejects a negative radius. -/
structure BlurFilter where
  radius : Int
deriving DecidableEq, Repr

def BlurFilter.init (radius : Int) : Except String BlurFilter :=
  if radius < 0 then .error "ValueError: el radio debe ser positivo"
  else .ok ⟨radius⟩

def BlurFilter.applyF (f : BlurFilter) (img : Image) : Image :=
  Image.blurred f.radius img

def BlurFilter.toP (f : BlurFilter) : PFilter :=
  ⟨"BlurFilter", fun i => .ok (f.applyF i)⟩

/-- `BrightnessFilter(factor)`: rejects a negative factor; a factor above
5.0 only prints a warning. -/
structure BrightnessFilter where
  factor : ℚ
deriving DecidableEq, Repr

def BrightnessFilter.init (factor : ℚ) : Except String BrightnessFilter :=
  if factor < 0 then .error "ValueError: el factor debe ser positivo"
  else .ok ⟨factor⟩

/-- Whether the constructor prints the overexposure warning. -/
def brightness_warns (factor : ℚ) : Bool := decide (5 < factor)

def BrightnessFilter.applyF (f : BrightnessFilter) (img : Image) : Image :=
  Image.brightened f.factor img

def BrightnessFilter.toP (f : BrightnessFilter) : PFilter :=
  ⟨"BrightnessFilter", fun i => .ok (f.applyF i)⟩

/-- `EdgesFilter()`: parameterless. -/
structure EdgesFilter where
deriving DecidableEq, Repr

def EdgesFilter.applyF (_f : EdgesFilter) (img : Image) : Image := Image.edged img

def EdgesFilter.toP (f : EdgesFilter) : PFilter :=
  ⟨"EdgesFilter", fun i => .ok (f.applyF i)⟩

/-- `GrayscaleFilter()`: parameterless. -/
structure GrayscaleFilter where
deriving DecidableEq, Repr

def GrayscaleFilter.applyF (_f : GrayscaleFilter) (img : Image) : Image :=
  Image.grayed img

def GrayscaleFilter.toP (f : GrayscaleFilter) : PFilter :=
  ⟨"GrayscaleFilter", fun i => .ok (f.applyF i)⟩

/-- The pipeline object: the filter list and the two flags. -/
structure FilterPipeline where
  filters : List PFilter
  stop_on_error : Bool
  save_intermediate : Bool

/-- `FilterPipeline.__init__`: rejects an empty filter list (the element
type check is enforced by typing here). -/
def FilterPipeline.init (filters : List PFilter) (stop_on_error : Bool)
    (save_intermediate : Bool) : Except String FilterPipeline :=
  if filters.isEmpty then .error "ValueError: el pipeline debe tener al menos un filtro"
  else .ok ⟨filters, stop_on_error, save_intermediate⟩

/-- The accumulator of the `apply` loop: per-step stats, the two counters
and the working image. -/
structure PipeAcc where
  filter_stats : List StepStat
  successful_count : Nat
  failed_count : Nat
  result_image : Image

/-- The filter loop of `FilterPipeline.apply`: walk the filters in order;
on success replace the working image and append a success entry; on failure
append a failed entry with the error and either break (`stop`) or continue
with the unmodified working image. -/
def pipeRun (stop : Bool) : List PFilter → Nat → Image → PipeAcc
  | [], _, img => ⟨[], 0, 0, img⟩
  | f :: rest, idx, img =>
    match f.run img with
    | .ok img2 =>
      let r := pipeRun stop rest (idx + 1) img2
      ⟨⟨f.name, idx, "success", none⟩ :: r.filter_stats, r.successful_count + 1,
        r.failed_count, r.result_image⟩
    | .error e =>
      if stop then ⟨[⟨f.name, idx, "failed", some e⟩], 0, 1, img⟩
      else
        let r := pipeRun stop rest (idx + 1) img
        ⟨⟨f.name, idx, "failed", some e⟩ :: r.filter_stats, r.successful_count,
          r.failed_count + 1, r.result_image⟩

/-- The stats dictionary `apply` returns (total_time not modelled). -/
structure PipeStats where
  filters : List StepStat
  successful : Nat
  failed : Nat
  total_filters : Nat
deriving DecidableEq, Repr

/-- `FilterPipeline.apply(image)`: run the loop on a copy of the input and
return `(None, stats)` when every step failed, `(image, stats)` otherwise. -/
def FilterPipeline.apply (p : FilterPipeline) (image : Image) :
    Option Image × PipeStats :=
  let r := pipeRun p.stop_on_error p.filters 0 image.copy
  let stats : PipeStats :=
    ⟨r.filter_stats, r.successful_count, r.failed_count, p.filters.length⟩
  if r.successful_count = 0 then (none, stats) else (some r.result_image, stats)

/-- A filter descriptor `{type, ...params}` as the factory receives it:
the mandatory `type` and the recognized optional params. -/
structure FilterConfig where
  type : String
  radius : Option Int := none
  factor : Option ℚ := none
deriving DecidableEq, Repr

/-- Python `str.lower()`. -/
def strLower (s : String) : String := String.mk (s.data.map Char.toLower)

/-- `FilterFactory.create(filter_type, **kwargs)`: case-insensitive lookup
in the registry (blur, brightness, edges, grayscale and the alias gray); an
unknown type is a ValueError, an unexpected keyword is the TypeError the
constructor call raises, missing params fall back to the constructor
defaults (radius 2, factor 1.5). -/
def create (d : FilterConfig) : Except String PFilter :=
  match strLower d.type with
  | "blur" =>
    if d.factor.isSome then .error "TypeError: parametro inesperado para blur"
    else (BlurFilter.init (d.radius.getD 2)).map BlurFilter.toP
  | "brightness" =>
    if d.radius.isSome then .error "TypeError: parametro inesperado para brightness"
    else (BrightnessFilter.init (d.factor.getD (3 / 2))).map BrightnessFilter.toP
  | "edges" =>
    if d.radius.isSome ∨ d.factor.isSome then
      .error "TypeError: parametro inesperado para edges"
    else .ok (EdgesFilter.toP {})
  | "grayscale" =>
    if d.radius.isSome ∨ d.factor.isSome then
      .error "TypeError: parametro inesperado para grayscale"
    else .ok (GrayscaleFilter.toP {})
  | "gray" =>
    if d.radius.isSome ∨ d.factor.isSome then
      .error "TypeError: parametro inesperado para gray"
    else .ok (GrayscaleFilter.toP {})
  | _ => .error "ValueError: filtro no encontrado"

/-- The conversion loop of `create_pipeline`: each descriptor through
`create_from_config` (which is `create` on a descriptor whose mandatory
`type` the record type already guarantees), errors wrapped with the index. -/
def create_pipeline_filters : Nat → List FilterConfig → Except String (List PFilter)
  | _, [] => .ok []
  | i, d :: rest =>
    match create d with
    | .error e => .error ("Error creando filtro " ++ natStr i ++ ": " ++ e)
    | .ok f => (create_pipeline_filters (i + 1) rest).map (fun fs => f :: fs)

/-- `FilterFactory.create_pipeline(configs, **kwargs)`: convert every
descriptor in order, then build the pipeline (whose constructor rejects an
empty list). -/
def create_pipeline (descs : List FilterConfig) (stop_on_error : Bool)
    (save_intermediate : Bool) : Except String FilterPipeline :=
  match create_pipeline_filters 0 descs with
  | .error e => .error e
  | .ok fs => FilterPipeline.init fs stop_on_error save_intermediate

/-- Whether construction succeeded (Python: no exception raised). -/
def exceptOk {α β : Type} : Except α β → Bool
  | .ok _ => true
  | .error _ => false

/-- C8 counterexample: `BrightnessFilter(0)` is accepted by the code (the
check is `factor < 0`), yet 0 is not greater than 0, so the claimed
success-iff-positive boundary is wrong at factor 0. -/
theorem c8_brightness_zero_accepted :
    BrightnessFilter.init 0 = Except.ok ⟨0⟩ ∧ ¬ ((0 : ℚ) > 0) :=
  ⟨rfl, by norm_num⟩

/-- C8 amended: brightness construction succeeds exactly for factor at
least 0 (not strictly positive), the overexposure warning fires exactly
above 5, blur construction succeeds exactly for radius at least 0, and the
factory defaults are factor 1.5 and radius 2. -/
theorem c8_construction_validation :
    (∀ q : ℚ, exceptOk (BrightnessFilter.init q) = true ↔ 0 ≤ q)
    ∧ (∀ r : Int, exceptOk (BlurFilter.init r) = true ↔ 0 ≤ r)
    ∧ (∀ q : ℚ, brightness_warns q = true ↔ 5 < q)
    ∧ create ⟨"brightness", none, none⟩
        = (BrightnessFilter.init (3 / 2)).map BrightnessFilter.toP
    ∧ create ⟨"blur", none, none⟩ = (BlurFilter.init 2).map BlurFilter.toP := by
  refine ⟨?_, ?_, ?_, rfl, rfl⟩
  · intro q
    by_cases h : q < 0
    · simp only [BrightnessFilter.init, if_pos h, exceptOk]
      constructor
      · intro hb
        cases hb
      · intro hle
        exact absurd h (not_lt.mpr hle)
    · simp only [BrightnessFilter.init, if_neg h, exceptOk]
      simp [not_lt.mp h]
  · intro r
    by_cases h : r < 0
    · simp only [BlurFilter.init, if_pos h, exceptOk]
      constructor
      · intro hb
        cases hb
      · intro hle
        omega
    · simp only [BlurFilter.init, if_neg h, exceptOk]
      simp
      omega
  · intro q
    simp [brightness_warns]

/-- Sequential composition of the fallible steps: the image each prefix of
filters produces, `none` as soon as one step fails. -/
def runOk : List PFilter → Image → Option Image
  | [], img => some img
  | f :: rest, img =>
    match f.run img with
    | .ok img2 => runOk rest img2
    | .error _ => none

/-- C7: `apply` returns no image exactly when no step succeeded; and at the
first failing step (after a prefix that succeeds producing `img2`) the loop
records a failed entry carrying the error at that index, under
`stop_on_error` performs no further steps (stats stop there, the working
image and the success count stay those of the prefix), and otherwise
continues with the unmodified working image `img2` (the remaining run is
exactly the run of the suffix from `img2`). -/
theorem c7_pipeline_apply_spec :
    (∀ (p : FilterPipeline) (img : Image),
        (FilterPipeline.apply p img).1 = none
          ↔ (FilterPipeline.apply p img).2.successful = 0)
    ∧ (∀ (stop : Bool) (pre : List PFilter) (f : PFilter) (post : List PFilter)
        (img img2 : Image) (e : String) (idx : Nat),
        runOk pre img = some img2 → f.run img2 = Except.error e →
          ((pipeRun stop (pre ++ f :: post) idx img).filter_stats.get? pre.length
              = some ⟨f.name, idx + pre.length, "failed", some e⟩)
          ∧ (stop = true →
              (pipeRun stop (pre ++ f :: post) idx img).filter_stats.length
                  = pre.length + 1
              ∧ (pipeRun stop (pre ++ f :: post) idx img).result_image = img2
              ∧ (pipeRun stop (pre ++ f :: post) idx img).successful_count = pre.length)
          ∧ (stop = false →
              (pipeRun stop (pre ++ f :: post) idx img).filter_stats.drop (pre.length + 1)
                  = (pipeRun false post (idx + pre.length + 1) img2).filter_stats
              ∧ (pipeRun stop (pre ++ f :: post) idx img).result_image
                  = (pipeRun false post (idx + pre.length + 1) img2).result_image)) := by
  constructor
  · intro p img
    simp only [FilterPipeline.apply]
    by_cases h : (pipeRun p.stop_on_error p.filters 0 img.copy).successful_count = 0
    · simp [h]
    · simp [h]
  · intro stop pre
    induction pre with
    | nil =>
      intro f post img img2 e idx hpre hf
      have himg : img = img2 := by
        simpa [runOk] using hpre
      subst himg
      cases stop with
      | true => simp [pipeRun, hf]
      | false => simp [pipeRun, hf]
    | cons g gs ih =>
      intro f post img img2 e idx hpre hf
      cases hg : g.run img with
      | error e2 => simp [runOk, hg] at hpre
      | ok imgm =>
        have hpre2 : runOk gs imgm = some img2 := by
          simpa [runOk, hg] using hpre
        have IH := ih f post imgm img2 e (idx + 1) hpre2 hf
        have harith : idx + 1 + gs.length = idx + (gs.length + 1) := by omega
        rw [harith] at IH
        refine ⟨?_, ?_, ?_⟩
        · simpa [pipeRun, hg, List.length_cons] using IH.1
        · intro hstop
          have H := IH.2.1 hstop
          subst hstop
          simp only [List.cons_append, pipeRun, hg]
          refine ⟨?_, ?_, ?_⟩
          · simpa using H.1
          · simpa using H.2.1
          · simpa using H.2.2
        · intro hstop
          have H := IH.2.2 hstop
          subst hstop
          simp only [List.cons_append, pipeRun, hg]
          refine ⟨?_, ?_⟩
          · simpa using H.1
          · simpa using H.2

/-- A pipeline step that always raises, as a test fixture for C7. -/
def boomFilter : PFilter := ⟨"Boom", fun _ => Except.error "boom"⟩

/-- C7 witness: the specification applied to the concrete pipeline
grayscale, boom, blur over a source image, with `stop_on_error` off, and
the iff applied to a singleton failing pipeline. -/
theorem c7_pipeline_witness :
    ((FilterPipeline.apply ⟨[boomFilter], true, false⟩ (Image.src 0)).1 = none
      ↔ (FilterPipeline.apply ⟨[boomFilter], true, false⟩ (Image.src 0)).2.successful = 0)
    ∧ ((pipeRun false ([GrayscaleFilter.toP {}] ++ boomFilter :: [BlurFilter.toP ⟨2⟩]) 0
          (Image.src 0)).filter_stats.get? 1
        = some ⟨"Boom", 0 + 1, "failed", some "boom"⟩)
    ∧ ((pipeRun false ([GrayscaleFilter.toP {}] ++ boomFilter :: [BlurFilter.toP ⟨2⟩]) 0
          (Image.src 0)).filter_stats.drop 2
        = (pipeRun false [BlurFilter.toP ⟨2⟩] 2 (Image.grayed (Image.src 0))).filter_stats) := by
  have T := c7_pipeline_apply_spec
  have H := T.2 false [GrayscaleFilter.toP {}] boomFilter [BlurFilter.toP ⟨2⟩]
    (Image.src 0) (Image.grayed (Image.src 0)) "boom" 0 (by rfl) (by rfl)
  exact ⟨T.1 ⟨[boomFilter], true, false⟩ (Image.src 0), H.1, (H.2.2 rfl).1⟩

/-- The pure transform a valid descriptor denotes: the image its created
filter produces (the input image in the unreachable error cases). -/
def applyCreated (d : FilterConfig) (img : Image) : Image :=
  match create d with
  | .ok f =>
    match f.run img with
    | .ok img2 => img2
    | .error _ => img
  | .error _ => img

theorem create_run_ok (d : FilterConfig) (f : PFilter) (hc : create d = .ok f)
    (img : Image) : f.run img = Except.ok (applyCreated d img) := by
  have htotal : ∃ g : Image, f.run img = Except.ok g := by
    unfold create at hc
    split at hc
    · by_cases hs : d.factor.isSome
      · simp [hs] at hc
      · simp only [hs, if_false] at hc
        cases hinit : BlurFilter.init (d.radius.getD 2) with
        | error e => rw [hinit] at hc; simp [Except.map] at hc
        | ok b =>
          rw [hinit] at hc
          simp only [Except.map] at hc
          cases hc
          exact ⟨_, rfl⟩
    · by_cases hs : d.radius.isSome
      · simp [hs] at hc
      · simp only [hs, if_false] at hc
        cases hinit : BrightnessFilter.init (d.factor.getD (3 / 2)) with
        | error e => rw [hinit] at hc; simp [Except.map] at hc
        | ok b =>
          rw [hinit] at hc
          simp only [Except.map] at hc
          cases hc
          exact ⟨_, rfl⟩
    · by_cases hs : d.radius.isSome = true ∨ d.factor.isSome = true
      · simp [hs] at hc
      · simp only [hs, if_false] at hc
        cases hc
        exact ⟨_, rfl⟩
    · by_cases hs : d.radius.isSome = true ∨ d.factor.isSome = true
      · simp [hs] at hc
      · simp only [hs, if_false] at hc
        cases hc
        exact ⟨_, rfl⟩
    · by_cases hs : d.radius.isSome = true ∨ d.factor.isSome = true
      · simp [hs] at hc
      · simp only [hs, if_false] at hc
        cases hc
        exact ⟨_, rfl⟩
    · simp at hc
  obtain ⟨g, hg⟩ := htotal
  unfold applyCreated
  rw [hc]
  dsimp only
  rw [hg]

theorem pipeRun_all_created (descs : List FilterConfig) :
    ∀ (i : Nat) (fs : List PFilter) (j : Nat) (img : Image),
      create_pipeline_filters i descs = Except.ok fs →
      (pipeRun true fs j img).successful_count = fs.length
      ∧ (pipeRun true fs j img).result_image
          = descs.foldl (fun acc d => applyCreated d acc) img := by
  induction descs with
  | nil =>
    intro i fs j img hc
    simp only [create_pipeline_filters] at hc
    cases hc
    simp [pipeRun]
  | cons d rest ih =>
    intro i fs j img hc
    simp only [create_pipeline_filters] at hc
    cases hcr : create d with
    | error e => rw [hcr] at hc; simp at hc
    | ok f =>
      rw [hcr] at hc
      cases hrest : create_pipeline_filters (i + 1) rest with
      | error e => rw [hrest] at hc; simp [Except.map] at hc
      | ok fs2 =>
        rw [hrest] at hc
        simp only [Except.map] at hc
        cases hc
        have hrun := create_run_ok d f hcr img
        have IH := ih (i + 1) fs2 (j + 1) (applyCreated d img) hrest
        simp only [pipeRun, hrun]
        constructor
        · simp [IH.1]
        · simpa using IH.2

/-- C9: when `create_pipeline` succeeds on a descriptor list (with
`stop_on_error`), applying the built pipeline to an image returns exactly
the sequential composition, in order, of the filters `create` yields for
the corresponding descriptors. -/
theorem c9_factory_composition (descs : List FilterConfig) (p : FilterPipeline)
    (img : Image) (hok : create_pipeline descs true false = Except.ok p) :
    (FilterPipeline.apply p img).1
      = some (descs.foldl (fun acc d => applyCreated d acc) img) := by
  unfold create_pipeline at hok
  cases hfs : create_pipeline_filters 0 descs with
  | error e => rw [hfs] at hok; cases hok
  | ok fs =>
    rw [hfs] at hok
    unfold FilterPipeline.init at hok
    dsimp only at hok
    by_cases hemp : fs.isEmpty
    · rw [if_pos hemp] at hok; cases hok
    · rw [if_neg hemp] at hok
      cases hok
      have H := pipeRun_all_created descs 0 fs 0 img.copy hfs
      have hlen : fs.length ≠ 0 := by
        cases fs with
        | nil => simp at hemp
        | cons a l => simp
      simp only [FilterPipeline.apply, H.1]
      rw [if_neg hlen]
      rw [H.2]
      rfl

/-- The descriptor list of the factory-composition witness. -/
def demoDescs : List FilterConfig := [⟨"grayscale", none, none⟩, ⟨"blur", some 3, none⟩]

/-- The pipeline `create_pipeline` builds from `demoDescs`. -/
def demoPipeline : FilterPipeline :=
  ⟨[GrayscaleFilter.toP {}, BlurFilter.toP ⟨3⟩], true, false⟩

/-- C9 witness: the composition law on the concrete descriptor list
grayscale then blur radius 3, applied to a source image. -/
theorem c9_factory_composition_witness :
    (FilterPipeline.apply demoPipeline (Image.src 0)).1
      = some (demoDescs.foldl (fun acc d => applyCreated d acc) (Image.src 0)) :=
  c9_factory_composition demoDescs demoPipeline (Image.src 0) rfl

end ProyectoCN
